import Mathlib

/-!
Verification of the resilient request decoder (`fix_json_format`), the result
normalization layer (`execute_sql_query`) and the `/query` transport shim
(`query_sql`) of `src/flask_api_ultra_robust.py`, as a shallow embedding.

Python values that flow through the handler (parsed JSON, Python literals,
response dictionaries) are modelled by `PyVal`.  Python dictionaries are
modelled as association lists with unique keys, built by `insertKey`, which
reproduces CPython insertion-order semantics (an update keeps the original
key position, later values win).

The standard-library behaviour the source relies on is modelled at the
fidelity the theorems need:
* `json.loads` (strict mode) is `jsonLoads`: a recursive-descent parser for
  RFC-8259 JSON that rejects literal control characters (code < 0x20) inside
  strings, accepts the single-character escapes `\" \\ \/ \b \f \n \r \t`,
  rejects trailing garbage, and gives duplicate object keys last-value-wins
  semantics.  The `\uXXXX` escape form and the non-standard `NaN`/`Infinity`
  extensions of the Python parser are outside the modelled subset and are
  conservatively rejected (no claim's input uses them).
* `re.search(r'"sql":\s*"([^"]*(?:\\.[^"]*)*)"', raw, re.DOTALL)` is
  `findSql`.  Because the leading `[^"]*` of the value group is greedy and
  stops exactly at the first `"` (where the closing quote of the pattern then
  matches immediately), the alternative `(?:\\.[^"]*)*` can never consume a
  character on a successful match: the pattern is equivalent to
  `"sql":\s*"([^"]*)"`.  `findSql` therefore scans for the first position
  where the literal `"sql":` is followed by optional whitespace, an opening
  quote, a run of non-quote characters and a closing quote, and returns the
  whole matched span together with the captured value run.
* `str.replace` is `strRepl`: left-to-right, non-overlapping replacement of
  every occurrence.
* `re.sub` with the strategy-3 pattern `"([^"]+)":\s*"([^"]*(?:\n[^"]*)*)"`
  (whose value group is likewise equivalent to `[^"]*`) is `sub3`.
* `ast.literal_eval` is `literalEval`, a parser for the Python literal
  subset the decoder can meet: `None`/`True`/`False`, signed decimal
  numerals with an optional fractional part, single- or double-quoted
  strings with the common escapes (an unknown escape keeps the backslash,
  as in CPython), lists, tuples (parenthesised, with trailing commas) and
  dict displays with string-literal keys.  Constructs outside this subset
  (triple quotes, underscores in numerals, exponents, sets, non-string dict
  keys) are conservatively rejected; no input appearing in the theorems
  below uses them.
-/

/-- The `{` character, kept out of string literals. -/
def lbrace : Char := Char.ofNat 123

/-- The `}` character, kept out of string literals. -/
def rbrace : Char := Char.ofNat 125

/-- A Python value as it flows through the handler: `None`, booleans,
numbers (kept as their lexeme, so no floating-point semantics is needed),
strings, lists, tuples and string-keyed dictionaries. -/
inductive PyVal where
  | null
  | bool (b : Bool)
  | num (lexeme : String)
  | str (s : String)
  | arr (elems : List PyVal)
  | tup (elems : List PyVal)
  | obj (fields : List (String × PyVal))

/-- CPython dictionary insertion: an existing key keeps its position and
receives the new value, a new key is appended. -/
def insertKey : List (String × PyVal) → String → PyVal → List (String × PyVal)
  | [], k, v => [(k, v)]
  | (k', v') :: t, k, v =>
    if k' = k then (k', v) :: t else (k', v') :: insertKey t k v

/-- Dictionary lookup (`dict.get` with default `None` is
`(lookupKey d k).getD .null`). -/
def lookupKey : List (String × PyVal) → String → Option PyVal
  | [], _ => none
  | (k', v') :: t, k => if k' = k then some v' else lookupKey t k

/-- Whether a JSON/Python numeric lexeme denotes zero: ignoring a sign and
the exponent, every mantissa digit is `0`. -/
def isZeroNum (s : String) : Bool :=
  let l := match s.data with
    | c :: t => if c = '-' ∨ c = '+' then t else s.data
    | [] => []
  let m := l.takeWhile (fun c => !(c = 'e' || c = 'E'))
  (m.filter (fun c => !(c = '.'))).all (fun c => c = '0')

/-- Python truthiness of the modelled values (`if not data:`). -/
def pyTruthy : PyVal → Bool
  | .null => false
  | .bool b => b
  | .num lx => !isZeroNum lx
  | .str s => !s.data.isEmpty
  | .arr l => !l.isEmpty
  | .tup l => !l.isEmpty
  | .obj l => !l.isEmpty

/-- Whether the value is a Python mapping (only mappings answer `.get`). -/
def isMapping : PyVal → Bool
  | .obj _ => true
  | _ => false

/-- The Python type name, as it appears in an `AttributeError` message. -/
def pyTypeName : PyVal → String
  | .null => "NoneType"
  | .bool _ => "bool"
  | .num lx => if lx.data.any (fun c => c = '.' || c = 'e' || c = 'E')
               then "float" else "int"
  | .str _ => "str"
  | .arr _ => "list"
  | .tup _ => "tuple"
  | .obj _ => "dict"

/-! ### Strict JSON parsing (`json.loads`) -/

/-- JSON insignificant whitespace (space, tab, line feed, carriage return). -/
def jskipWs : List Char → List Char
  | [] => []
  | c :: t => if c = ' ' || c = '\t' || c = '\n' || c = '\r'
              then jskipWs t else c :: t

/-- The single-character JSON string escapes. -/
def simpleEsc (c : Char) : Option Char :=
  if c = '\"' then some '\"'
  else if c = '\\' then some '\\'
  else if c = '/' then some '/'
  else if c = 'b' then some (Char.ofNat 8)
  else if c = 'f' then some (Char.ofNat 12)
  else if c = 'n' then some '\n'
  else if c = 'r' then some '\r'
  else if c = 't' then some '\t'
  else none

/-- Prefix a character onto the parsed part of a string-parser result. -/
def consFst (c : Char) : Option (List Char × List Char) →
    Option (List Char × List Char)
  | some (s, r) => some (c :: s, r)
  | none => none

/-- Body of a JSON string, after the opening quote, with an escape flag:
when `esc` is set the previous character was a backslash and the current
character is decoded as an escape. Strict mode, so a literal control
character (code < 0x20) is rejected. Returns the decoded characters and
the input after the closing quote. -/
def parseStrBodyAux : Bool → List Char → Option (List Char × List Char)
  | _, [] => none
  | true, e :: t2 =>
    match simpleEsc e with
    | some d => consFst d (parseStrBodyAux false t2)
    | none => none
  | false, c :: t =>
    if c = '\"' then some ([], t)
    else if c = '\\' then parseStrBodyAux true t
    else if c.toNat < 32 then none
    else consFst c (parseStrBodyAux false t)

/-- Body of a JSON string, after the opening quote. -/
def parseStrBody (l : List Char) : Option (List Char × List Char) :=
  parseStrBodyAux false l

/-- Longest run of decimal digits, and the rest. -/
def digitsRun (l : List Char) : List Char × List Char :=
  (l.takeWhile Char.isDigit, l.dropWhile Char.isDigit)

/-- Optional fractional part `.digits` of a JSON number. -/
def parseFrac : List Char → Option (List Char × List Char)
  | [] => some ([], [])
  | c :: t =>
    if c = '.' then
      match digitsRun t with
      | ([], _) => none
      | (ds, r) => some (c :: ds, r)
    else some ([], c :: t)

/-- Optional exponent part `e[+-]digits` of a JSON number. -/
def parseExp : List Char → Option (List Char × List Char)
  | [] => some ([], [])
  | c :: t =>
    if c = 'e' || c = 'E' then
      match t with
      | [] => none
      | s :: t2 =>
        if s = '+' || s = '-' then
          match digitsRun t2 with
          | ([], _) => none
          | (ds, r) => some (c :: s :: ds, r)
        else
          match digitsRun t with
          | ([], _) => none
          | (ds, r) => some (c :: ds, r)
    else some ([], c :: t)

/-- A JSON number: optional minus, integer part without leading zeros,
optional fraction and exponent.  Returns the lexeme and the rest. -/
def parseNum (l : List Char) : Option (List Char × List Char) :=
  let (sgn, r0) : List Char × List Char :=
    match l with
    | c :: t => if c = '-' then ([c], t) else ([], l)
    | [] => ([], [])
  match r0 with
  | [] => none
  | c :: t =>
    if !c.isDigit then none
    else
      let (ip, r1) : List Char × List Char :=
        if c = '0' then ([c], t) else digitsRun r0
      match parseFrac r1 with
      | none => none
      | some (fp, r2) =>
        match parseExp r2 with
        | none => none
        | some (ep, r3) => some (sgn ++ ip ++ fp ++ ep, r3)

/-- The continuation after one member's value parse inside a JSON object:
on a parsed value, a comma continues the loop and a closing brace ends the
object; anything else (or a value-parse failure) fails. -/
def afterMember
    (next : List (String × PyVal) → List Char → Option (PyVal × List Char))
    (acc : List (String × PyVal)) (k : String) :
    Option (PyVal × List Char) → Option (PyVal × List Char)
  | none => none
  | some (v, r3) =>
    match jskipWs r3 with
    | [] => none
    | c3 :: r4 =>
      if c3 = ',' then next (insertKey acc k v) (jskipWs r4)
      else if c3 = rbrace then some (.obj (insertKey acc k v), r4)
      else none

/-- The member loop of a JSON object (after the opening brace, first key
expected). `pv` parses one value; the fuel bounds the number of members. -/
def membersLoop (pv : List Char → Option (PyVal × List Char)) :
    Nat → List (String × PyVal) → List Char → Option (PyVal × List Char)
  | 0, _, _ => none
  | _ + 1, _, [] => none
  | f + 1, acc, c :: t =>
    if c = '\"' then
      match parseStrBody t with
      | none => none
      | some (k, r1) =>
        match jskipWs r1 with
        | [] => none
        | c2 :: r2 =>
          if c2 = ':' then
            afterMember (membersLoop pv f) acc (String.mk k) (pv (jskipWs r2))
          else none
    else none

/-- The element loop of a JSON array (after `[`, first element expected). -/
def elemsLoop (pv : List Char → Option (PyVal × List Char)) :
    Nat → List PyVal → List Char → Option (PyVal × List Char)
  | 0, _, _ => none
  | f + 1, acc, l =>
    match pv l with
    | none => none
    | some (v, r1) =>
      match jskipWs r1 with
      | [] => none
      | c2 :: r2 =>
        if c2 = ',' then elemsLoop pv f (acc ++ [v]) (jskipWs r2)
        else if c2 = ']' then some (.arr (acc ++ [v]), r2)
        else none

/-- A JSON value.  The fuel decreases at each nested value and at each
member/element, so `2 * length + 2` is always enough. -/
def parseVal : Nat → List Char → Option (PyVal × List Char)
  | 0, _ => none
  | _ + 1, [] => none
  | f + 1, c :: t =>
    if c = '\"' then
      match parseStrBody t with
      | some (s, r) => some (.str (String.mk s), r)
      | none => none
    else if c = lbrace then
      match jskipWs t with
      | [] => none
      | c2 :: t2 =>
        if c2 = rbrace then some (.obj [], t2)
        else membersLoop (parseVal f) (t2.length + 1) [] (c2 :: t2)
    else if c = '[' then
      match jskipWs t with
      | [] => none
      | c2 :: t2 =>
        if c2 = ']' then some (.arr [], t2)
        else elemsLoop (parseVal f) (t2.length + 1) [] (c2 :: t2)
    else if c = 't' then
      if ['r', 'u', 'e'].isPrefixOf t then some (.bool true, t.drop 3) else none
    else if c = 'f' then
      if ['a', 'l', 's', 'e'].isPrefixOf t then some (.bool false, t.drop 4)
      else none
    else if c = 'n' then
      if ['u', 'l', 'l'].isPrefixOf t then some (.null, t.drop 3) else none
    else
      match parseNum (c :: t) with
      | some (lx, r) => some (.num (String.mk lx), r)
      | none => none

/-- `json.loads` on a character list: parse one value, allow surrounding
whitespace, reject trailing garbage. -/
def jsonLoadsList (l : List Char) : Option PyVal :=
  match parseVal (2 * l.length + 2) (jskipWs l) with
  | some (v, rest) => if jskipWs rest = [] then some v else none
  | none => none

/-- `json.loads` on a string. -/
def jsonLoads (s : String) : Option PyVal :=
  jsonLoadsList s.data

example : jsonLoads "  [1, 2]  " = some (.arr [.num "1", .num "2"]) := rfl
example : jsonLoads "(1, 2)" = none := rfl
example : jsonLoads "[1, 2,]" = none := rfl
example : jsonLoads "3.5e-2" = some (.num "3.5e-2") := rfl
example : jsonLoads "01" = none := rfl
example : jsonLoads "" = none := rfl
example :
    jsonLoads (String.mk ([lbrace] ++ "\"a\": \"b\"".data ++ [rbrace]))
      = some (.obj [("a", .str "b")]) := rfl
example :
    jsonLoads (String.mk ([lbrace] ++ "\"a\": 1, \"a\": 2".data ++ [rbrace]))
      = some (.obj [("a", .num "2")]) := rfl
example :
    jsonLoads (String.mk ([lbrace] ++ "\"a\": \"x".data ++ ['\n'] ++
        "y\"".data ++ [rbrace])) = none := rfl
example : jsonLoads "\"a\\nb\"" = some (.str (String.mk ['a', '\n', 'b'])) := rfl
example : jsonLoads "true" = some (.bool true) := rfl
example : jsonLoads "null" = some (.null) := rfl

/-! ### The `sql`-field pattern of strategies 2 and 4 -/

/-- Python regex `\s` (ASCII range): space, tab, newline, carriage return,
vertical tab, form feed. -/
def pySpace (c : Char) : Bool :=
  c = ' ' || c = '\t' || c = '\n' || c = '\r' ||
  c = Char.ofNat 11 || c = Char.ofNat 12

/-- The literal characters of `"sql":` in the pattern. -/
def sqlKey : List Char := ['\"', 's', 'q', 'l', '\"', ':']

/-- The value run `[^"]*` followed by the required closing quote: the run of
non-quote characters and the input after the closing quote, or `none` when no
quote follows (in which case the whole pattern fails at this position). -/
def scanToQuote : List Char → Option (List Char × List Char)
  | [] => none
  | c :: t => if c = '\"' then some ([], t) else consFst c (scanToQuote t)

/-- Try the pattern `"sql":\s*"([^"]*)"` anchored at the start of `l`;
on success return the whole matched span (group 0) and the captured value
run (group 1). -/
def matchSqlAt (l : List Char) : Option (List Char × List Char) :=
  if sqlKey.isPrefixOf l then
    let r1 := l.drop 6
    let ws := r1.takeWhile pySpace
    match r1.dropWhile pySpace with
    | q :: r3 =>
      if q = '\"' then
        match scanToQuote r3 with
        | some (cap, _) => some (sqlKey ++ ws ++ '\"' :: (cap ++ ['\"']), cap)
        | none => none
      else none
    | [] => none
  else none

/-- `re.search` for the `sql` pattern: first position (left to right) where
the pattern matches. -/
def findSql : List Char → Option (List Char × List Char)
  | [] => none
  | c :: t =>
    match matchSqlAt (c :: t) with
    | some r => some r
    | none => findSql t

/-! ### `str.replace` -/

/-- `str.replace`, fuelled: replace every occurrence of `pat` by `new`,
left to right, non-overlapping. -/
def replaceSub (pat new : List Char) : Nat → List Char → List Char
  | 0, l => l
  | _ + 1, [] => []
  | f + 1, c :: t =>
    if !pat.isEmpty && pat.isPrefixOf (c :: t) then
      new ++ replaceSub pat new f ((c :: t).drop pat.length)
    else c :: replaceSub pat new f t

/-- `str.replace` (each step consumes at least one character, so
`length + 1` fuel is always enough). -/
def strRepl (pat new l : List Char) : List Char :=
  replaceSub pat new (l.length + 1) l

/-- `str.replace` with a single-character needle. -/
def replace1 (a : Char) (repl : List Char) : List Char → List Char
  | [] => []
  | c :: t => if c = a then repl ++ replace1 a repl t else c :: replace1 a repl t

/-- `content.replace('\n', '\\n').replace('\r', '\\r')`: escape literal
newlines and carriage returns. -/
def escNR (l : List Char) : List Char :=
  replace1 '\r' ['\\', 'r'] (replace1 '\n' ['\\', 'n'] l)

/-- `content.replace('\\n', '\n').replace('\\r', '\r')`: turn the two-character
escapes back into literal control characters (strategy 4). -/
def unescNR (l : List Char) : List Char :=
  strRepl ['\\', 'r'] ['\r'] (strRepl ['\\', 'n'] ['\n'] l)

/-! ### The five repair strategies and `fix_json_format` -/

/-- Strategy 1: direct `json.loads` of the raw text. -/
def strategy1 (raw : String) : Option PyVal := jsonLoads raw

/-- The replacement text `f'"sql": "{sql_content}"'` of strategy 2: note the
single space after the colon, whatever whitespace the matched span had. -/
def sqlRepl (cap : List Char) : List Char :=
  ['\"', 's', 'q', 'l', '\"', ':', ' ', '\"'] ++ escNR cap ++ ['\"']

/-- The text strategy 2 hands back to `json.loads`: the first `sql` match is
located, its captured value gets its newlines escaped, and *every* occurrence
of the matched span in the raw text is replaced by the canonical
`"sql": "..."` form (`str.replace` replaces globally). -/
def sqlFixedText (l : List Char) : Option (List Char) :=
  match findSql l with
  | some (whole, cap) => some (strRepl whole (sqlRepl cap) l)
  | none => none

/-- Strategy 2: scoped newline escaping of the `sql` field, then re-parse. -/
def strategy2 (raw : String) : Option PyVal :=
  match sqlFixedText raw.data with
  | some fixed => jsonLoadsList fixed
  | none => none

/-- Try the strategy-3 pattern `"([^"]+)":\s*"([^"]*)"` anchored at the start
of `l`; on success return the key run, the value run and the input after the
match. -/
def match3At (l : List Char) : Option (List Char × List Char × List Char) :=
  match l with
  | [] => none
  | c :: t =>
    if c = '\"' then
      let k := t.takeWhile (fun d => !(d = '\"'))
      match t.dropWhile (fun d => !(d = '\"')) with
      | [] => none
      | _ :: r2 =>
        if k.isEmpty then none
        else
          match r2 with
          | [] => none
          | c2 :: r3 =>
            if c2 = ':' then
              match r3.dropWhile pySpace with
              | [] => none
              | q2 :: r5 =>
                if q2 = '\"' then
                  let v := r5.takeWhile (fun d => !(d = '\"'))
                  match r5.dropWhile (fun d => !(d = '\"')) with
                  | [] => none
                  | _ :: r7 => some (k, v, r7)
                else none
            else none
    else none

/-- `re.sub` with the strategy-3 pattern: each match is rewritten to
`f'"{key}": "{fixed_value}"'` (single space after the colon), scanning
resumes after the match; a non-matching character is copied. -/
def sub3 : Nat → List Char → List Char
  | 0, l => l
  | _ + 1, [] => []
  | f + 1, c :: t =>
    match match3At (c :: t) with
    | some (k, v, rest) =>
      ('\"' :: (k ++ '\"' :: ':' :: ' ' :: '\"' :: (escNR v ++ ['\"']))) ++
        sub3 f rest
    | none => c :: sub3 f t

/-- Strategy 3: global string-value newline escaping, then re-parse. -/
def strategy3 (raw : String) : Option PyVal :=
  jsonLoadsList (sub3 (raw.data.length + 1) raw.data)

/-- Strategy 4: extract the raw `sql` value with the same pattern as
strategy 2, turn escaped newlines back into literal ones, and return the
minimal request dictionary. -/
def strategy4 (raw : String) : Option PyVal :=
  match findSql raw.data with
  | some (_, cap) => some (.obj [("sql", .str (String.mk (unescNR cap)))])
  | none => none

/-! ### `ast.literal_eval` (modelled subset) -/

/-- The `'` character, kept out of character literals. -/
def squote : Char := Char.ofNat 39

/-- Python-source whitespace skipped between literal tokens. -/
def pySkipWs : List Char → List Char
  | [] => []
  | c :: t => if pySpace c then pySkipWs t else c :: t

/-- Body of a Python string literal with quote character `q`.  A known
escape decodes, an unknown escape keeps the backslash and the character
(as in CPython), a literal newline is a syntax error. -/
def pyStrBody (q : Char) : List Char → Option (List Char × List Char)
  | [] => none
  | c :: t =>
    if c = q then some ([], t)
    else if c = '\\' then
      match t with
      | [] => none
      | e :: t2 =>
        if e = 'n' then consFst '\n' (pyStrBody q t2)
        else if e = 't' then consFst '\t' (pyStrBody q t2)
        else if e = 'r' then consFst '\r' (pyStrBody q t2)
        else if e = '\\' then consFst '\\' (pyStrBody q t2)
        else if e = squote then consFst squote (pyStrBody q t2)
        else if e = '\"' then consFst '\"' (pyStrBody q t2)
        else if e = 'b' then consFst (Char.ofNat 8) (pyStrBody q t2)
        else if e = 'f' then consFst (Char.ofNat 12) (pyStrBody q t2)
        else if e = 'v' then consFst (Char.ofNat 11) (pyStrBody q t2)
        else if e = 'a' then consFst (Char.ofNat 7) (pyStrBody q t2)
        else if e = '0' then consFst (Char.ofNat 0) (pyStrBody q t2)
        else
          match pyStrBody q t2 with
          | some (s, r) => some ('\\' :: e :: s, r)
          | none => none
    else if c = '\n' ∨ c = '\r' then none
    else consFst c (pyStrBody q t)

/-- A signed decimal Python numeral with optional fractional part. -/
def litNum (l : List Char) : Option (List Char × List Char) :=
  let (sgn, r0) : List Char × List Char :=
    match l with
    | c :: t => if c = '-' ∨ c = '+' then ([c], t) else ([], l)
    | [] => ([], [])
  match digitsRun r0 with
  | ([], _) => none
  | (ds, r1) =>
    match r1 with
    | c :: t =>
      if c = '.' then
        let (fs, r2) := digitsRun t
        some (sgn ++ ds ++ c :: fs, r2)
      else some (sgn ++ ds, r1)
    | [] => some (sgn ++ ds, [])

/-- The element loop of a Python list/tuple display with closing character
`close`: trailing commas are allowed. -/
def litElems (pv : List Char → Option (PyVal × List Char)) (close : Char) :
    Nat → List PyVal → List Char → Option (List PyVal × List Char)
  | 0, _, _ => none
  | f + 1, acc, l =>
    match l with
    | [] => none
    | c :: t =>
      if c = close then some (acc, t)
      else
        match pv (c :: t) with
        | none => none
        | some (v, r1) =>
          match pySkipWs r1 with
          | [] => none
          | c2 :: r2 =>
            if c2 = ',' then litElems pv close f (acc ++ [v]) (pySkipWs r2)
            else if c2 = close then some (acc ++ [v], r2)
            else none

/-- The member loop of a Python dict display: keys must be string literals
(the modelled subset), trailing commas are allowed. -/
def litMembers (pv : List Char → Option (PyVal × List Char)) :
    Nat → List (String × PyVal) → List Char →
    Option (List (String × PyVal) × List Char)
  | 0, _, _ => none
  | f + 1, acc, l =>
    match l with
    | [] => none
    | c :: t =>
      if c = rbrace then some (acc, t)
      else
        match pv (c :: t) with
        | none => none
        | some (.str k, r1) =>
          match pySkipWs r1 with
          | [] => none
          | c2 :: r2 =>
            if c2 = ':' then
              match pv (pySkipWs r2) with
              | none => none
              | some (v, r3) =>
                match pySkipWs r3 with
                | [] => none
                | c3 :: r4 =>
                  if c3 = ',' then
                    litMembers pv f (insertKey acc k v) (pySkipWs r4)
                  else if c3 = rbrace then some (insertKey acc k v, r4)
                  else none
            else none
        | some (_, _) => none

/-- A Python literal value (the modelled subset of `ast.literal_eval`). -/
def litVal : Nat → List Char → Option (PyVal × List Char)
  | 0, _ => none
  | _ + 1, [] => none
  | f + 1, c :: t =>
    if c = squote ∨ c = '\"' then
      match pyStrBody c t with
      | some (s, r) => some (.str (String.mk s), r)
      | none => none
    else if c = lbrace then
      match litMembers (litVal f) (t.length + 1) [] (pySkipWs t) with
      | some (fs, r) => some (.obj fs, r)
      | none => none
    else if c = '[' then
      match litElems (litVal f) ']' (t.length + 1) [] (pySkipWs t) with
      | some (es, r) => some (.arr es, r)
      | none => none
    else if c = '(' then
      match pySkipWs t with
      | [] => none
      | c2 :: t2 =>
        if c2 = ')' then some (.tup [], t2)
        else
          match litVal f (c2 :: t2) with
          | none => none
          | some (v, r1) =>
            match pySkipWs r1 with
            | [] => none
            | c3 :: r2 =>
              if c3 = ')' then some (v, r2)
              else if c3 = ',' then
                match pySkipWs r2 with
                | [] => none
                | c4 :: r3 =>
                  if c4 = ')' then some (.tup [v], r3)
                  else
                    match litElems (litVal f) ')' (r2.length + 1) [v]
                        (c4 :: r3) with
                    | some (es, r) => some (.tup es, r)
                    | none => none
              else none
    else if c = 'N' then
      if ['o', 'n', 'e'].isPrefixOf t then some (.null, t.drop 3) else none
    else if c = 'T' then
      if ['r', 'u', 'e'].isPrefixOf t then some (.bool true, t.drop 3) else none
    else if c = 'F' then
      if ['a', 'l', 's', 'e'].isPrefixOf t then some (.bool false, t.drop 4)
      else none
    else if c = '-' ∨ c = '+' ∨ c.isDigit then
      match litNum (c :: t) with
      | some (lx, r) => some (.num (String.mk lx), r)
      | none => none
    else none

/-- `ast.literal_eval` on the raw text (modelled subset): one literal,
surrounding whitespace allowed, trailing garbage rejected. -/
def literalEval (raw : String) : Option PyVal :=
  match litVal (2 * raw.data.length + 2) (pySkipWs raw.data) with
  | some (v, r) => if pySkipWs r = [] then some v else none
  | none => none

/-- Strategy 5: permissive literal-structure evaluation.  The result is
returned as decoded, whatever its shape — there is no mapping check. -/
def strategy5 (raw : String) : Option PyVal := literalEval raw

/-- `fix_json_format`: the ordered, short-circuiting cascade of the five
repair strategies; when all five fail, the decode error carries only the
message `无法解析JSON数据` and no partial result. -/
def fixJsonFormat (raw : String) : Except String PyVal :=
  match strategy1 raw with
  | some v => .ok v
  | none =>
    match strategy2 raw with
    | some v => .ok v
    | none =>
      match strategy3 raw with
      | some v => .ok v
      | none =>
        match strategy4 raw with
        | some v => .ok v
        | none =>
          match strategy5 raw with
          | some v => .ok v
          | none => .error "无法解析JSON数据"

/-! ### Result normalization (`execute_sql_query`) -/

/-- The outcome of running a query against the storage collaborator:
column names plus positionally aligned rows, or an execution error. -/
inductive QueryOutcome where
  | ok (columns : List String) (rows : List (List PyVal))
  | err (message : String)

/-- One row of `df.to_dict('records')`: a dictionary built from the columns
and the row values in column order. -/
def mkRecord (cols : List String) (row : List PyVal) : List (String × PyVal) :=
  (cols.zip row).foldl (fun acc p => insertKey acc p.1 p.2) []

/-- The synthetic empty row `{col: None for col in df.columns}`. -/
def mkNullRow (cols : List String) : List (String × PyVal) :=
  cols.foldl (fun acc c => insertKey acc c .null) []

/-- `execute_sql_query`, normalizing a query outcome into the response
dictionary.  On success the keys are `success, error, data, row_count,
columns`; when the row list is empty but columns exist, `data` is one
synthetic all-`None` row; `row_count` is `len(data)`.  On error the keys
are exactly `success, error, data` (`row_count`/`columns` omitted). -/
def executeSqlQuery : QueryOutcome → List (String × PyVal)
  | .err m => [("success", .bool false), ("error", .str m), ("data", .null)]
  | .ok cols rows =>
    let data : List PyVal :=
      if rows.isEmpty && !cols.isEmpty then [.obj (mkNullRow cols)]
      else rows.map (fun r => .obj (mkRecord cols r))
    [("success", .bool true), ("error", .null), ("data", .arr data),
     ("row_count", .num (toString data.length)),
     ("columns", .arr (cols.map .str))]

/-! ### The `/query` transport shim (`query_sql`) -/

/-- Field access `result[key]` on a response dictionary (always present on
the paths taken; `None` is never reached as default). -/
def getField (e : List (String × PyVal)) (k : String) : PyVal :=
  (lookupKey e k).getD .null

/-- The tail of `query_sql` once a usable query was extracted: run the
query, then shape the 200 success envelope or the 400 failure envelope. -/
def execRespond (store : PyVal → QueryOutcome) (ts : String) (q : PyVal) :
    List (String × PyVal) × Nat :=
  let result := executeSqlQuery (store q)
  if pyTruthy (getField result "success") then
    ([("success", .bool true), ("error", .null),
      ("data", getField result "data"),
      ("row_count", getField result "row_count"),
      ("columns", getField result "columns"),
      ("sql", q), ("timestamp", .str ts)], 200)
  else
    ([("success", .bool false), ("error", getField result "error"),
      ("data", .null), ("sql", q), ("timestamp", .str ts)], 400)

/-- The `/query` handler: decode the raw body (400 on decode failure),
reject a falsy body (400), read `data.get('sql')` — which raises
`AttributeError` on non-mappings, caught by the outer handler as a
generic 500 server error — reject a falsy query (400), and otherwise
execute and answer.  The storage collaborator and the timestamp are
passed in as the external dependencies they are. -/
def querySql (store : PyVal → QueryOutcome) (ts : String) (raw : String) :
    List (String × PyVal) × Nat :=
  match fixJsonFormat raw with
  | .error m =>
    ([("success", .bool false), ("error", .str ("JSON格式错误: " ++ m)),
      ("data", .null)], 400)
  | .ok d =>
    if !pyTruthy d then
      ([("success", .bool false), ("error", .str "请求体不能为空"),
        ("data", .null)], 400)
    else
      match d with
      | .obj fs =>
        match lookupKey fs "sql" with
        | some q =>
          if pyTruthy q then execRespond store ts q
          else
            ([("success", .bool false), ("error", .str "缺少sql参数"),
              ("data", .null)], 400)
        | none =>
          ([("success", .bool false), ("error", .str "缺少sql参数"),
            ("data", .null)], 400)
      | _ =>
        ([("success", .bool false),
          ("error", .str ("服务器错误: '" ++ pyTypeName d ++
            "' object has no attribute 'get'")),
          ("data", .null), ("timestamp", .str ts)], 500)

/-- The query value handed to `execute_sql_query` when the guards of
`query_sql` (decode, non-empty body, mapping shape, truthy `sql` field)
all pass; `none` when an early-return branch is taken instead. -/
def reachedQuery (raw : String) : Option PyVal :=
  match fixJsonFormat raw with
  | .error _ => none
  | .ok d =>
    if !pyTruthy d then none
    else
      match d with
      | .obj fs =>
        match lookupKey fs "sql" with
        | some q => if pyTruthy q then some q else none
        | none => none
      | _ => none

/-- The 404 envelope of the `not_found` handler. -/
def notFoundEnvelope : List (String × PyVal) × Nat :=
  ([("success", .bool false), ("error", .str "接口不存在"),
    ("data", .null)], 404)

/-- The 405 envelope of the `method_not_allowed` handler. -/
def methodNotAllowedEnvelope : List (String × PyVal) × Nat :=
  ([("success", .bool false), ("error", .str "请求方法不允许"),
    ("data", .null)], 405)

/-- The response-envelope invariant of the specification: a `true` success
flag forces a null error and present `data`/`columns` fields; a `false`
success flag forces a null `data` field. -/
def envInvariant (e : List (String × PyVal)) : Prop :=
  (lookupKey e "success" = some (.bool true) →
    lookupKey e "error" = some .null ∧
    (lookupKey e "data").isSome = true ∧
    (lookupKey e "columns").isSome = true) ∧
  (lookupKey e "success" = some (.bool false) →
    lookupKey e "data" = some .null)

/-! ### Helper lemmas on dictionaries -/

lemma lookup_insertKey_self (acc : List (String × PyVal)) (k : String)
    (v : PyVal) : lookupKey (insertKey acc k v) k = some v := by
  induction acc with
  | nil => simp [insertKey, lookupKey]
  | cons p t ih =>
    by_cases h : p.1 = k
    · simp [insertKey, lookupKey, h]
    · simp [insertKey, lookupKey, h, ih]

lemma lookup_insertKey_ne (acc : List (String × PyVal)) (k k' : String)
    (v : PyVal) (h : k' ≠ k) :
    lookupKey (insertKey acc k v) k' = lookupKey acc k' := by
  induction acc with
  | nil => simp [insertKey, lookupKey, Ne.symm h]
  | cons p t ih =>
    by_cases hp : p.1 = k
    · subst hp
      simp [insertKey, lookupKey, Ne.symm h]
    · simp [insertKey, lookupKey, hp, ih]

lemma mkNullRow_lookup_aux (cols : List String)
    (acc : List (String × PyVal)) (c : String)
    (h : c ∈ cols ∨ lookupKey acc c = some .null) :
    lookupKey (cols.foldl (fun a c' => insertKey a c' .null) acc) c
      = some .null := by
  induction cols generalizing acc with
  | nil =>
    rcases h with h | h
    · cases h
    · simpa using h
  | cons c0 t ih =>
    simp only [List.foldl_cons]
    rcases h with h | h
    · rcases List.mem_cons.mp h with h | h
      · subst h
        exact ih _ (Or.inr (lookup_insertKey_self acc c .null))
      · exact ih _ (Or.inl h)
    · by_cases hc : c = c0
      · subst hc
        exact ih _ (Or.inr (lookup_insertKey_self acc c .null))
      · exact ih _ (Or.inr ((lookup_insertKey_ne acc c0 c .null hc).trans h))

/-! ### Claim C1 -/

/-- Claim C1: on a successful outcome with a non-empty column list and no
rows, normalization synthesizes exactly one all-null row: `data` is the
single synthetic row mapping every column name to null, `row_count` is 1 and
`columns` is the column list. -/
theorem c1_empty_result_synthesis (cols : List String) (h : cols ≠ []) :
    executeSqlQuery (.ok cols []) =
      [("success", .bool true), ("error", .null),
       ("data", .arr [.obj (mkNullRow cols)]), ("row_count", .num "1"),
       ("columns", .arr (cols.map .str))] ∧
    ∀ c ∈ cols, lookupKey (mkNullRow cols) c = some .null := by
  constructor
  · have hc : cols.isEmpty = false := by
      cases cols with
      | nil => exact absurd rfl h
      | cons a t => rfl
    simp [executeSqlQuery, hc]
    rfl
  · intro c hc
    exact mkNullRow_lookup_aux cols [] c (Or.inl hc)

/-- Witness for C1 at `columns = ["a", "b"]`, `rows = []`: the synthetic
row is exactly `[("a", null), ("b", null)]`. -/
theorem c1_empty_result_synthesis_witness :
    (["a", "b"] ≠ ([] : List String)) ∧
    (executeSqlQuery (.ok ["a", "b"] []) =
      [("success", .bool true), ("error", .null),
       ("data", .arr [.obj (mkNullRow ["a", "b"])]), ("row_count", .num "1"),
       ("columns", .arr (["a", "b"].map .str))] ∧
    ∀ c ∈ ["a", "b"], lookupKey (mkNullRow ["a", "b"]) c = some .null) ∧
    mkNullRow ["a", "b"] = [("a", .null), ("b", .null)] :=
  ⟨by decide, c1_empty_result_synthesis ["a", "b"] (by decide), rfl⟩

/-! ### Claim C4 -/

/-- Claim C4: on an error outcome, normalization returns exactly
`{success: false, error: message, data: null}`; the `row_count` and
`columns` keys are absent. -/
theorem c4_error_envelope (m : String) :
    executeSqlQuery (.err m) =
      [("success", .bool false), ("error", .str m), ("data", .null)] ∧
    lookupKey (executeSqlQuery (.err m)) "row_count" = none ∧
    lookupKey (executeSqlQuery (.err m)) "columns" = none :=
  ⟨rfl, rfl, rfl⟩

/-! ### Claim C3 -/

/-- Claim C3: when all five repair strategies fail, the decoder fails with
the decode error (message `无法解析JSON数据`), which carries no partial
result — it never returns a decoded request. -/
theorem c3_exhaustion_failure (raw : String)
    (h1 : strategy1 raw = none) (h2 : strategy2 raw = none)
    (h3 : strategy3 raw = none) (h4 : strategy4 raw = none)
    (h5 : strategy5 raw = none) :
    fixJsonFormat raw = .error "无法解析JSON数据" := by
  unfold fixJsonFormat
  rw [h1, h2, h3, h4, h5]

/-- Witness for C3 at the unparseable input `@@@@`. -/
theorem c3_exhaustion_failure_witness :
    (strategy1 "@@@@" = none ∧ strategy2 "@@@@" = none ∧
     strategy3 "@@@@" = none ∧ strategy4 "@@@@" = none ∧
     strategy5 "@@@@" = none) ∧
    fixJsonFormat "@@@@" = .error "无法解析JSON数据" :=
  ⟨⟨rfl, rfl, rfl, rfl, rfl⟩, c3_exhaustion_failure "@@@@" rfl rfl rfl rfl rfl⟩

/-! ### Concrete collaborators and payloads used by witnesses -/

/-- A storage collaborator that always fails. -/
def storeA : PyVal → QueryOutcome := fun _ => .err "down"

/-- A storage collaborator that always answers one empty column set. -/
def storeB : PyVal → QueryOutcome := fun _ => .ok ["x"] []

/-- The payload `{"a": 1}`: decodes fine, but has no `sql` field. -/
def rawMissing : String := String.mk ([lbrace] ++ "\"a\": 1".data ++ [rbrace])

/-- The payload `{"sql": "SELECT 1"}`: the canonical well-formed request. -/
def rawSqlOk : String :=
  String.mk ([lbrace] ++ "\"sql\": \"SELECT 1\"".data ++ [rbrace])

/-! ### Claim C5 -/

/-- Whether the decoded value is a mapping with a non-empty string `sql`
field (what the claim asserts of every successful decode). -/
def hasUsableSqlStr : PyVal → Bool
  | .obj fs =>
    match lookupKey fs "sql" with
    | some (.str s) => !s.data.isEmpty
    | _ => false
  | _ => false

/-- Counterexample to C5 as stated: the raw body `[1, 2]` decodes
successfully (strategy 1), yet the decoded value is not a mapping and has
no `sql` field at all. -/
theorem c5_counterexample :
    fixJsonFormat "[1, 2]" = .ok (.arr [.num "1", .num "2"]) ∧
    isMapping (.arr [.num "1", .num "2"]) = false ∧
    hasUsableSqlStr (.arr [.num "1", .num "2"]) = false :=
  ⟨rfl, rfl, rfl⟩

/-- Claim C5 (amended): decode success alone does not guarantee a mapping
with an `sql` field; the guarantee holds at the point of execution — when
the handler reaches query execution, the decoded request is a truthy
mapping whose `sql` field is present and truthy, and the handler's answer
is the execution response for exactly that query value. -/
theorem c5_reached_query_usable (raw : String) (q : PyVal)
    (h : reachedQuery raw = some q) :
    (∃ fs, fixJsonFormat raw = .ok (.obj fs) ∧
      pyTruthy (.obj fs) = true ∧ lookupKey fs "sql" = some q ∧
      pyTruthy q = true) ∧
    ∀ (store : PyVal → QueryOutcome) (ts : String),
      querySql store ts raw = execRespond store ts q := by
  cases hfix : fixJsonFormat raw with
  | error m => simp [reachedQuery, hfix] at h
  | ok d =>
    simp only [reachedQuery, hfix] at h
    by_cases htr : pyTruthy d = true
    · rw [htr] at h
      simp only [Bool.not_true, Bool.false_eq_true, if_false] at h
      cases d with
      | obj fs =>
        cases hl : lookupKey fs "sql" with
        | none => simp [hl] at h
        | some q' =>
          simp only [hl] at h
          by_cases hq : pyTruthy q' = true
          · rw [if_pos hq] at h
            obtain rfl : q' = q := by simpa using h
            refine ⟨⟨fs, rfl, htr, hl, hq⟩, ?_⟩
            intro store ts
            simp only [querySql, hfix, htr, Bool.not_true,
              Bool.false_eq_true, if_false, hl, if_pos hq]
          · rw [if_neg hq] at h; cases h
      | null => simp at h
      | bool b => simp at h
      | num lx => simp at h
      | str s => simp at h
      | arr l => simp at h
      | tup l => simp at h
    · rw [if_pos (by simp [htr])] at h; cases h

/-- Witness for the amended C5 at the payload `{"sql": "SELECT 1"}`. -/
theorem c5_reached_query_usable_witness :
    reachedQuery rawSqlOk = some (.str "SELECT 1") ∧
    ((∃ fs, fixJsonFormat rawSqlOk = .ok (.obj fs) ∧
      pyTruthy (.obj fs) = true ∧
      lookupKey fs "sql" = some (.str "SELECT 1") ∧
      pyTruthy (.str "SELECT 1") = true) ∧
    ∀ (store : PyVal → QueryOutcome) (ts : String),
      querySql store ts rawSqlOk = execRespond store ts (.str "SELECT 1")) :=
  ⟨rfl, c5_reached_query_usable rawSqlOk (.str "SELECT 1") rfl⟩

/-! ### Claim C6 -/

/-- Counterexample to C6 as stated: the raw input `(1, 2)` reaches
strategy 5 (strategies 1–4 all fail), its literal evaluation yields a
tuple — not a mapping — and strategy 5 nevertheless produces it as the
decoded request. -/
theorem c6_counterexample :
    strategy1 "(1, 2)" = none ∧ strategy2 "(1, 2)" = none ∧
    strategy3 "(1, 2)" = none ∧ strategy4 "(1, 2)" = none ∧
    strategy5 "(1, 2)" = some (.tup [.num "1", .num "2"]) ∧
    isMapping (.tup [.num "1", .num "2"]) = false ∧
    fixJsonFormat "(1, 2)" = .ok (.tup [.num "1", .num "2"]) :=
  ⟨rfl, rfl, rfl, rfl, rfl, rfl, rfl⟩

/-- Claim C6 (amended): strategy 5 performs no structural-mapping check; it
returns whatever value the permissive literal evaluation yields — mapping
or not — and the decoder accepts that value whenever strategies 1–4 have
failed. -/
theorem c6_strategy5_unchecked (raw : String) (v : PyVal)
    (h1 : strategy1 raw = none) (h2 : strategy2 raw = none)
    (h3 : strategy3 raw = none) (h4 : strategy4 raw = none)
    (h5 : literalEval raw = some v) :
    strategy5 raw = some v ∧ fixJsonFormat raw = .ok v := by
  have hs5 : strategy5 raw = some v := h5
  refine ⟨hs5, ?_⟩
  unfold fixJsonFormat
  rw [h1, h2, h3, h4, hs5]

/-- Witness for the amended C6 at the tuple input `(1, 2)`. -/
theorem c6_strategy5_unchecked_witness :
    (strategy1 "(1, 2)" = none ∧ strategy2 "(1, 2)" = none ∧
     strategy3 "(1, 2)" = none ∧ strategy4 "(1, 2)" = none ∧
     literalEval "(1, 2)" = some (.tup [.num "1", .num "2"])) ∧
    (strategy5 "(1, 2)" = some (.tup [.num "1", .num "2"]) ∧
     fixJsonFormat "(1, 2)" = .ok (.tup [.num "1", .num "2"])) :=
  ⟨⟨rfl, rfl, rfl, rfl, rfl⟩,
   c6_strategy5_unchecked "(1, 2)" (.tup [.num "1", .num "2"])
     rfl rfl rfl rfl rfl⟩

/-! ### Claim C8 -/

lemma envInvariant_executeSqlQuery (o : QueryOutcome) :
    envInvariant (executeSqlQuery o) := by
  cases o with
  | err m =>
    exact ⟨fun h => by simp [executeSqlQuery, lookupKey] at h,
           fun _ => by simp [executeSqlQuery, lookupKey]⟩
  | ok cols rows =>
    exact ⟨fun _ => by simp [executeSqlQuery, lookupKey],
           fun h => by simp [executeSqlQuery, lookupKey] at h⟩

lemma envInvariant_execRespond (store : PyVal → QueryOutcome) (ts : String)
    (q : PyVal) : envInvariant (execRespond store ts q).1 := by
  unfold execRespond
  by_cases hs : pyTruthy (getField (executeSqlQuery (store q)) "success") = true
  · rw [if_pos hs]
    exact ⟨fun _ => by simp [lookupKey],
           fun h => by simp [lookupKey] at h⟩
  · rw [if_neg hs]
    exact ⟨fun h => by simp [lookupKey] at h,
           fun _ => by simp [lookupKey]⟩

/-- Claim C8: every response envelope the system produces — the two shapes
of `execute_sql_query`, every branch of the `/query` handler, and the
404/405 handlers — satisfies the invariant: a `true` success flag implies a
null error with `data` and `columns` present, and a `false` success flag
implies a null `data`. -/
theorem c8_envelope_invariant :
    (∀ o : QueryOutcome, envInvariant (executeSqlQuery o)) ∧
    (∀ (store : PyVal → QueryOutcome) (ts raw : String),
      envInvariant (querySql store ts raw).1) ∧
    envInvariant notFoundEnvelope.1 ∧
    envInvariant methodNotAllowedEnvelope.1 := by
  refine ⟨envInvariant_executeSqlQuery, fun store ts raw => ?_, ?_, ?_⟩
  · cases hfix : fixJsonFormat raw with
    | error m =>
      simp only [querySql, hfix]
      exact ⟨fun h => by simp [lookupKey] at h, fun _ => by simp [lookupKey]⟩
    | ok d =>
      simp only [querySql, hfix]
      by_cases htr : pyTruthy d = true
      · rw [htr]
        simp only [Bool.not_true, Bool.false_eq_true, if_false]
        cases d with
        | obj fs =>
          cases hl : lookupKey fs "sql" with
          | none =>
            simp only [hl]
            exact ⟨fun h => by simp [lookupKey] at h,
                   fun _ => by simp [lookupKey]⟩
          | some q =>
            simp only [hl]
            by_cases hq : pyTruthy q = true
            · rw [if_pos hq]
              exact envInvariant_execRespond store ts q
            · rw [if_neg hq]
              exact ⟨fun h => by simp [lookupKey] at h,
                     fun _ => by simp [lookupKey]⟩
        | null =>
          exact ⟨fun h => by simp [lookupKey] at h,
                 fun _ => by simp [lookupKey]⟩
        | bool b =>
          exact ⟨fun h => by simp [lookupKey] at h,
                 fun _ => by simp [lookupKey]⟩
        | num lx =>
          exact ⟨fun h => by simp [lookupKey] at h,
                 fun _ => by simp [lookupKey]⟩
        | str s =>
          exact ⟨fun h => by simp [lookupKey] at h,
                 fun _ => by simp [lookupKey]⟩
        | arr l =>
          exact ⟨fun h => by simp [lookupKey] at h,
                 fun _ => by simp [lookupKey]⟩
        | tup l =>
          exact ⟨fun h => by simp [lookupKey] at h,
                 fun _ => by simp [lookupKey]⟩
      · rw [if_pos (by simp [htr])]
        exact ⟨fun h => by simp [lookupKey] at h,
               fun _ => by simp [lookupKey]⟩
  · exact ⟨fun h => by simp [notFoundEnvelope, lookupKey] at h,
           fun _ => by simp [notFoundEnvelope, lookupKey]⟩
  · exact ⟨fun h => by simp [methodNotAllowedEnvelope, lookupKey] at h,
           fun _ => by simp [methodNotAllowedEnvelope, lookupKey]⟩

/-! ### Claim C9 -/

/-- The `MissingField` condition of the specification, read off the
handler's guards: the body decoded but is falsy, or it is a mapping whose
`sql` entry (`data.get('sql')`) is absent or falsy. -/
def noUsableSql (d : PyVal) : Bool :=
  !pyTruthy d ||
    (match d with
     | .obj fs => !pyTruthy ((lookupKey fs "sql").getD .null)
     | _ => false)

/-- Claim C9: on a decode failure, and on a decoded body without a usable
`sql` field, the handler answers the 400 failure envelope without ever
consulting the storage collaborator — the response is identical for any two
collaborators. -/
theorem c9_fail_fast (raw ts : String) (s1 s2 : PyVal → QueryOutcome)
    (h : (∃ m, fixJsonFormat raw = .error m) ∨
         (∃ d, fixJsonFormat raw = .ok d ∧ noUsableSql d = true)) :
    querySql s1 ts raw = querySql s2 ts raw ∧
    (querySql s1 ts raw).2 = 400 ∧
    lookupKey (querySql s1 ts raw).1 "success" = some (.bool false) := by
  rcases h with ⟨m, hm⟩ | ⟨d, hd, hu⟩
  · refine ⟨by simp only [querySql, hm], ?_, ?_⟩
    · simp only [querySql, hm]
    · simp only [querySql, hm]
      simp [lookupKey]
  · by_cases htr : pyTruthy d = true
    · have hobj : ∃ fs, d = .obj fs ∧
          pyTruthy ((lookupKey fs "sql").getD .null) = false := by
        cases d with
        | obj fs =>
          refine ⟨fs, rfl, ?_⟩
          simp only [noUsableSql, htr, Bool.not_true, Bool.false_or] at hu
          simpa using hu
        | null => simp [pyTruthy] at htr
        | bool b => simp [noUsableSql, htr] at hu
        | num lx => simp [noUsableSql, htr] at hu
        | str s => simp [noUsableSql, htr] at hu
        | arr l => simp [noUsableSql, htr] at hu
        | tup l => simp [noUsableSql, htr] at hu
      obtain ⟨fs, rfl, hget⟩ := hobj
      cases hl : lookupKey fs "sql" with
      | none =>
        refine ⟨?_, ?_, ?_⟩ <;>
          simp [querySql, hd, htr, hl, lookupKey]
      | some q =>
        have hq : pyTruthy q = false := by
          rw [hl] at hget
          simpa using hget
        refine ⟨?_, ?_, ?_⟩ <;>
          simp [querySql, hd, htr, hl, hq, lookupKey]
    · have htr' : pyTruthy d = false := by
        cases hb : pyTruthy d
        · rfl
        · exact absurd hb htr
      refine ⟨?_, ?_, ?_⟩ <;> simp [querySql, hd, htr', lookupKey]

/-- Witness for C9 at the payload `{"a": 1}` (decodes, no `sql` field) and
two observably different collaborators. -/
theorem c9_fail_fast_witness :
    (∃ d, fixJsonFormat rawMissing = .ok d ∧ noUsableSql d = true) ∧
    (querySql storeA "T" rawMissing = querySql storeB "T" rawMissing ∧
     (querySql storeA "T" rawMissing).2 = 400 ∧
     lookupKey (querySql storeA "T" rawMissing).1 "success"
       = some (.bool false)) :=
  ⟨⟨.obj [("a", .num "1")], rfl, rfl⟩,
   c9_fail_fast rawMissing "T" storeA storeB
     (Or.inr ⟨.obj [("a", .num "1")], rfl, rfl⟩)⟩

/-! ### Claim C10 -/

/-- Counterexample to C10 as stated: the body `[]` decodes successfully to
a non-mapping, yet the handler answers the 400 empty-body client error,
not the generic 500 server error. -/
theorem c10_counterexample :
    fixJsonFormat "[]" = .ok (.arr []) ∧
    isMapping (.arr []) = false ∧
    querySql storeA "T" "[]" =
      ([("success", .bool false), ("error", .str "请求体不能为空"),
        ("data", .null)], 400) ∧
    (querySql storeA "T" "[]").2 ≠ 500 :=
  ⟨rfl, rfl, rfl, by decide⟩

/-- Claim C10 (amended): for every request body that decodes successfully
to a *truthy* value that is not a mapping, the handler does not return a
client-error decode failure: reading the `sql` field raises
`AttributeError`, and the answer is the generic server-error envelope with
HTTP status 500. -/
theorem c10_nonmapping_server_error (raw ts : String) (d : PyVal)
    (store : PyVal → QueryOutcome)
    (hdec : fixJsonFormat raw = .ok d) (hmap : isMapping d = false)
    (htr : pyTruthy d = true) :
    querySql store ts raw =
      ([("success", .bool false),
        ("error", .str ("服务器错误: '" ++ pyTypeName d ++
          "' object has no attribute 'get'")),
        ("data", .null), ("timestamp", .str ts)], 500) := by
  cases d with
  | obj fs => simp [isMapping] at hmap
  | null => simp [pyTruthy] at htr
  | bool b => simp [querySql, hdec, htr]
  | num lx => simp [querySql, hdec, htr]
  | str s => simp [querySql, hdec, htr]
  | arr l => simp [querySql, hdec, htr]
  | tup l => simp [querySql, hdec, htr]

/-- Witness for the amended C10 at the body `[1, 2]`. -/
theorem c10_nonmapping_server_error_witness :
    (fixJsonFormat "[1, 2]" = .ok (.arr [.num "1", .num "2"]) ∧
     isMapping (.arr [.num "1", .num "2"]) = false ∧
     pyTruthy (.arr [.num "1", .num "2"]) = true) ∧
    querySql storeA "T" "[1, 2]" =
      ([("success", .bool false),
        ("error", .str ("服务器错误: '" ++
          pyTypeName (.arr [.num "1", .num "2"]) ++
          "' object has no attribute 'get'")),
        ("data", .null), ("timestamp", .str "T")], 500) :=
  ⟨⟨rfl, rfl, rfl⟩,
   c10_nonmapping_server_error "[1, 2]" "T" (.arr [.num "1", .num "2"])
     storeA rfl rfl rfl⟩

/-! ### Occurrence counting and the splice behaviour of `str.replace` -/

/-- Number of positions of `l` at which `pat` occurs (all positions, also
overlapping ones). -/
def countPos (pat : List Char) : List Char → Nat
  | [] => 0
  | c :: t => (if pat.isPrefixOf (c :: t) then 1 else 0) + countPos pat t

lemma isPrefixOf_self_append (p r : List Char) :
    p.isPrefixOf (p ++ r) = true := by
  induction p with
  | nil => simp [List.isPrefixOf]
  | cons c t ih => simp [List.isPrefixOf, ih]

lemma countPos_le_append (pat x y : List Char) :
    countPos pat y ≤ countPos pat (x ++ y) := by
  induction x with
  | nil => simp
  | cons c t ih =>
    calc countPos pat y ≤ countPos pat (t ++ y) := ih
    _ ≤ countPos pat (c :: (t ++ y)) := by
        simp only [countPos]
        exact Nat.le_add_left _ _
    _ = countPos pat ((c :: t) ++ y) := rfl

lemma countPos_boundary (pat a b : List Char) (h : pat ≠ []) :
    1 ≤ countPos pat (a ++ (pat ++ b)) := by
  refine le_trans ?_ (countPos_le_append pat a (pat ++ b))
  cases pat with
  | nil => exact absurd rfl h
  | cons p0 pt =>
    have hpre : (p0 :: pt).isPrefixOf ((p0 :: pt) ++ b) = true :=
      isPrefixOf_self_append _ _
    show 1 ≤ countPos (p0 :: pt) (p0 :: (pt ++ b))
    simp only [countPos]
    rw [show p0 :: (pt ++ b) = (p0 :: pt) ++ b from rfl, hpre]
    simp

lemma replaceSub_nil (pat new : List Char) (f : Nat) :
    replaceSub pat new f [] = [] := by
  cases f <;> rfl

lemma replaceSub_of_countPos_zero (pat new : List Char) :
    ∀ (f : Nat) (l : List Char), countPos pat l = 0 →
    replaceSub pat new f l = l := by
  intro f
  induction f with
  | zero => intro l _; rfl
  | succ g ih =>
    intro l hc
    cases l with
    | nil => rfl
    | cons c t =>
      simp only [countPos] at hc
      have hpre : pat.isPrefixOf (c :: t) = false := by
        cases hp : pat.isPrefixOf (c :: t)
        · rfl
        · rw [hp] at hc; simp at hc
      have ht : countPos pat t = 0 := by
        rw [hpre] at hc; simpa using hc
      simp only [replaceSub, hpre, Bool.and_false, Bool.false_eq_true,
        if_false]
      rw [ih t ht]

lemma replaceSub_unique (pat new b : List Char) (hpat : pat ≠ []) :
    ∀ (a : List Char) (f : Nat), a.length + 1 ≤ f →
    countPos pat (a ++ (pat ++ b)) = 1 →
    replaceSub pat new f (a ++ (pat ++ b)) = a ++ (new ++ b) := by
  intro a
  induction a with
  | nil =>
    intro f hf hc
    cases f with
    | zero => omega
    | succ g =>
      cases pat with
      | nil => exact absurd rfl hpat
      | cons p0 pt =>
        simp only [List.nil_append] at hc ⊢
        have hpre : (p0 :: pt).isPrefixOf ((p0 :: pt) ++ b) = true :=
          isPrefixOf_self_append _ _
        have hstep : replaceSub (p0 :: pt) new (g + 1) ((p0 :: pt) ++ b) =
            new ++ replaceSub (p0 :: pt) new g
              (((p0 :: pt) ++ b).drop (p0 :: pt).length) := by
          show replaceSub (p0 :: pt) new (g + 1) (p0 :: (pt ++ b)) = _
          simp only [replaceSub]
          rw [show p0 :: (pt ++ b) = (p0 :: pt) ++ b from rfl, hpre]
          simp
        rw [hstep, List.drop_left]
        have hzero : countPos (p0 :: pt) b = 0 := by
          have h1 : countPos (p0 :: pt) ((p0 :: pt) ++ b) =
              1 + countPos (p0 :: pt) (pt ++ b) := by
            show countPos (p0 :: pt) (p0 :: (pt ++ b)) = _
            simp only [countPos]
            rw [show p0 :: (pt ++ b) = (p0 :: pt) ++ b from rfl, hpre]
            simp
          have h2 : countPos (p0 :: pt) (pt ++ b) = 0 := by omega
          have h3 := countPos_le_append (p0 :: pt) pt b
          omega
        rw [replaceSub_of_countPos_zero _ _ _ _ hzero]
  | cons c a' ih =>
    intro f hf hc
    have hlc : (c :: a').length = a'.length + 1 := rfl
    obtain ⟨g, rfl⟩ : ∃ g, f = g + 1 := ⟨f - 1, by omega⟩
    · have hpre : pat.isPrefixOf ((c :: a') ++ (pat ++ b)) = false := by
        cases hp : pat.isPrefixOf ((c :: a') ++ (pat ++ b))
        · rfl
        · exfalso
          have h1 : countPos pat ((c :: a') ++ (pat ++ b)) =
              1 + countPos pat (a' ++ (pat ++ b)) := by
            show countPos pat (c :: (a' ++ (pat ++ b))) = _
            simp only [countPos]
            rw [show c :: (a' ++ (pat ++ b)) = (c :: a') ++ (pat ++ b)
              from rfl, hp]
            simp
          have h2 := countPos_boundary pat a' b hpat
          omega
      have hstep : replaceSub pat new (g + 1) ((c :: a') ++ (pat ++ b)) =
          c :: replaceSub pat new g (a' ++ (pat ++ b)) := by
        show replaceSub pat new (g + 1) (c :: (a' ++ (pat ++ b))) = _
        simp only [replaceSub]
        rw [show c :: (a' ++ (pat ++ b)) = (c :: a') ++ (pat ++ b)
          from rfl, hpre]
        simp
      rw [hstep]
      have hc' : countPos pat (a' ++ (pat ++ b)) = 1 := by
        have h1 : countPos pat ((c :: a') ++ (pat ++ b)) =
            (if pat.isPrefixOf ((c :: a') ++ (pat ++ b)) then 1 else 0) +
              countPos pat (a' ++ (pat ++ b)) := rfl
        rw [hpre] at h1
        simp only [Bool.false_eq_true, if_false, Nat.zero_add] at h1
        rw [← h1]
        exact hc
      have hlen : a'.length + 1 ≤ g := by
        rw [hlc] at hf
        omega
      rw [ih g hlen hc']
      simp

lemma strRepl_unique (pat new a b : List Char) (hpat : pat ≠ [])
    (hc : countPos pat (a ++ (pat ++ b)) = 1) :
    strRepl pat new (a ++ (pat ++ b)) = a ++ (new ++ b) := by
  apply replaceSub_unique pat new b hpat a _ _ hc
  simp [List.length_append]

lemma matchSqlAt_some_ne_nil (l w cap : List Char)
    (h : matchSqlAt l = some (w, cap)) : w ≠ [] := by
  simp only [matchSqlAt] at h
  split at h
  · split at h
    · split at h
      · split at h
        · cases h
          simp [sqlKey]
        · exact absurd h (by simp)
      · exact absurd h (by simp)
    · exact absurd h (by simp)
  · exact absurd h (by simp)

lemma findSql_some_ne_nil (l w cap : List Char)
    (h : findSql l = some (w, cap)) : w ≠ [] := by
  induction l with
  | nil => exact absurd h (by simp [findSql])
  | cons c t ih =>
    simp only [findSql] at h
    split at h
    · cases h
      exact matchSqlAt_some_ne_nil _ _ _ (by assumption)
    · exact ih h

/-! ### Claim C7 -/

/-- The C7 counterexample payload: the body `{"sql":"a\nb"}` — no space
between the colon and the opening quote, a literal newline in the value. -/
def rawC7 : String :=
  String.mk ([lbrace] ++ ("\"sql\":\"a".data ++ '\n' :: "b\"".data) ++ [rbrace])

/-- The span matched by the `sql` pattern inside `rawC7`:
`"sql":"a⏎b"` (with a literal newline). -/
def sqlSpan7 : List Char := "\"sql\":\"a".data ++ '\n' :: "b\"".data

/-- Counterexample to C7 as stated: on `{"sql":"a\nb"}` the matched span is
`"sql":"a⏎b"`, and the claim's in-place repair (escape the newlines inside
the span, leave every character outside it unchanged) would produce
`{"sql":"a\nb"}` with the two-character escape and no other change; the
code instead produces `{"sql": "a\nb"}` — a space is inserted between the
colon and the quote, altering text outside the captured value. -/
theorem c7_counterexample :
    findSql rawC7.data = some (sqlSpan7, 'a' :: '\n' :: ['b']) ∧
    escNR sqlSpan7 = "\"sql\":\"a\\nb\"".data ∧
    sqlFixedText rawC7.data =
      some ([lbrace] ++ "\"sql\": \"a\\nb\"".data ++ [rbrace]) ∧
    ([lbrace] ++ "\"sql\": \"a\\nb\"".data ++ [rbrace]) ≠
      ([lbrace] ++ escNR sqlSpan7 ++ [rbrace]) :=
  ⟨rfl, rfl, rfl, by decide⟩

/-- Claim C7 (amended): when the matched `sql` span occurs exactly once in
the raw text, the repaired text is the raw text with that span replaced at
its offsets by `"sql": "` + escaped value + `"` — so the newlines inside
the captured value are escaped and every character outside the matched
span is unchanged, but the whitespace between the colon and the opening
quote inside the span is normalized to a single space (and, in general,
`str.replace` rewrites every occurrence of the span, not only the one at
the match offsets). -/
theorem c7_strategy2_repair_text (raw whole cap a b : List Char)
    (hf : findSql raw = some (whole, cap))
    (hsplit : raw = a ++ (whole ++ b))
    (huniq : countPos whole raw = 1) :
    sqlFixedText raw = some (a ++ (sqlRepl cap ++ b)) := by
  have hne := findSql_some_ne_nil raw whole cap hf
  unfold sqlFixedText
  rw [hf]
  have huniq' : countPos whole (a ++ (whole ++ b)) = 1 := hsplit ▸ huniq
  rw [hsplit]
  exact congrArg some (strRepl_unique whole (sqlRepl cap) a b hne huniq')

/-- Witness for the amended C7 at `{"sql":"a\nb"}`, whose matched span
occurs exactly once. -/
theorem c7_strategy2_repair_text_witness :
    (findSql rawC7.data = some (sqlSpan7, 'a' :: '\n' :: ['b']) ∧
     rawC7.data = [lbrace] ++ (sqlSpan7 ++ [rbrace]) ∧
     countPos sqlSpan7 rawC7.data = 1) ∧
    sqlFixedText rawC7.data =
      some ([lbrace] ++ (sqlRepl ('a' :: '\n' :: ['b']) ++ [rbrace])) :=
  ⟨⟨rfl, rfl, rfl⟩,
   c7_strategy2_repair_text rawC7.data sqlSpan7 ('a' :: '\n' :: ['b'])
     [lbrace] [rbrace] rfl rfl rfl⟩

/-! ### Character-level lemmas for the canonical `sql` payload (claim C2) -/

/-- An ordinary payload character: not a quote, not a backslash, not a
control character. -/
abbrev goodPlain (c : Char) : Prop := c ≠ '\"' ∧ c ≠ '\\' ∧ 32 ≤ c.toNat

/-- The effect of newline escaping on one character. -/
def escOne (c : Char) : List Char :=
  if c = '\n' then ['\\', 'n'] else if c = '\r' then ['\\', 'r'] else [c]

/-- Newline escaping, character by character. -/
def escSeq : List Char → List Char
  | [] => []
  | c :: t => escOne c ++ escSeq t

lemma replace1_append (a : Char) (rep x y : List Char) :
    replace1 a rep (x ++ y) = replace1 a rep x ++ replace1 a rep y := by
  induction x with
  | nil => rfl
  | cons c t ih =>
    by_cases hc : c = a
    · simp [replace1, hc, ih]
    · simp [replace1, hc, ih]

lemma escNR_eq_escSeq (v : List Char) : escNR v = escSeq v := by
  induction v with
  | nil => rfl
  | cons c t ih =>
    show replace1 '\r' ['\\', 'r'] (replace1 '\n' ['\\', 'n'] (c :: t)) = _
    by_cases hn : c = '\n'
    · subst hn
      have h1 : replace1 '\n' ['\\', 'n'] ('\n' :: t) =
          ['\\', 'n'] ++ replace1 '\n' ['\\', 'n'] t := by simp [replace1]
      rw [h1, replace1_append]
      have h2 : replace1 '\r' ['\\', 'r'] ['\\', 'n'] = ['\\', 'n'] := rfl
      rw [h2]
      show _ = escOne '\n' ++ escSeq t
      simp [escOne, escNR] at ih ⊢
      exact ih
    · by_cases hr : c = '\r'
      · subst hr
        have h1 : replace1 '\n' ['\\', 'n'] ('\r' :: t) =
            '\r' :: replace1 '\n' ['\\', 'n'] t := by simp [replace1]
        rw [h1]
        have h2 : replace1 '\r' ['\\', 'r'] ('\r' :: replace1 '\n' ['\\', 'n'] t) =
            ['\\', 'r'] ++ replace1 '\r' ['\\', 'r'] (replace1 '\n' ['\\', 'n'] t) := by
          simp [replace1]
        rw [h2]
        show _ = escOne '\r' ++ escSeq t
        simp [escOne, escNR] at ih ⊢
        exact ih
      · have h1 : replace1 '\n' ['\\', 'n'] (c :: t) =
            c :: replace1 '\n' ['\\', 'n'] t := by simp [replace1, hn]
        rw [h1]
        have h2 : replace1 '\r' ['\\', 'r'] (c :: replace1 '\n' ['\\', 'n'] t) =
            c :: replace1 '\r' ['\\', 'r'] (replace1 '\n' ['\\', 'n'] t) := by
          simp [replace1, hr]
        rw [h2]
        show _ = escOne c ++ escSeq t
        simp [escOne, hn, hr, escNR] at ih ⊢
        exact ih

lemma goodPlain_ne_nl (c : Char) (h : goodPlain c) : c ≠ '\n' := by
  intro hc
  subst hc
  exact absurd h.2.2 (by decide)

lemma goodPlain_ne_cr (c : Char) (h : goodPlain c) : c ≠ '\r' := by
  intro hc
  subst hc
  exact absurd h.2.2 (by decide)

lemma parseStrBody_plain_step (c : Char) (r : List Char) (h : goodPlain c) :
    parseStrBody (c :: r) = consFst c (parseStrBody r) := by
  obtain ⟨h1, h2, h3⟩ := h
  simp only [parseStrBody, parseStrBodyAux]
  rw [if_neg h1, if_neg h2, if_neg (by omega)]

lemma parseStrBody_escSeq (v : List Char) (rest : List Char)
    (hv : ∀ c ∈ v, goodPlain c ∨ c = '\n' ∨ c = '\r') :
    parseStrBody (escSeq v ++ '\"' :: rest) = some (v, rest) := by
  induction v with
  | nil => rfl
  | cons c t ih =>
    have ih' := ih (fun d hd => hv d (List.mem_cons_of_mem c hd))
    rcases hv c (List.mem_cons_self c t) with hg | hn | hr
    · have hesc : escOne c = [c] := by
        simp [escOne, goodPlain_ne_nl c hg, goodPlain_ne_cr c hg]
      show parseStrBody ((escOne c ++ escSeq t) ++ '\"' :: rest) = _
      rw [hesc]
      show parseStrBody (c :: (escSeq t ++ '\"' :: rest)) = _
      rw [parseStrBody_plain_step c _ hg, ih']
      rfl
    · subst hn
      show parseStrBody ((['\\', 'n'] ++ escSeq t) ++ '\"' :: rest) = _
      have hstep : parseStrBody ('\\' :: 'n' :: (escSeq t ++ '\"' :: rest)) =
          consFst '\n' (parseStrBody (escSeq t ++ '\"' :: rest)) := rfl
      rw [show (['\\', 'n'] ++ escSeq t) ++ '\"' :: rest =
        '\\' :: 'n' :: (escSeq t ++ '\"' :: rest) from rfl, hstep, ih']
      rfl
    · subst hr
      show parseStrBody ((['\\', 'r'] ++ escSeq t) ++ '\"' :: rest) = _
      have hstep : parseStrBody ('\\' :: 'r' :: (escSeq t ++ '\"' :: rest)) =
          consFst '\r' (parseStrBody (escSeq t ++ '\"' :: rest)) := rfl
      rw [show (['\\', 'r'] ++ escSeq t) ++ '\"' :: rest =
        '\\' :: 'r' :: (escSeq t ++ '\"' :: rest) from rfl, hstep, ih']
      rfl

lemma parseStrBody_control (v rest : List Char)
    (hv : ∀ c ∈ v, goodPlain c ∨ c = '\n' ∨ c = '\r')
    (hn : '\n' ∈ v) :
    parseStrBody (v ++ rest) = none := by
  induction v with
  | nil => cases hn
  | cons c t ih =>
    rcases hv c (List.mem_cons_self c t) with hg | hcn | hcr
    · have hmem : '\n' ∈ t := by
        rcases List.mem_cons.mp hn with h | h
        · exact absurd h.symm (goodPlain_ne_nl c hg)
        · exact h
      show parseStrBody (c :: (t ++ rest)) = none
      rw [parseStrBody_plain_step c _ hg,
        ih (fun d hd => hv d (List.mem_cons_of_mem c hd)) hmem]
      rfl
    · subst hcn
      rfl
    · subst hcr
      rfl

lemma scanToQuote_no_quote (v rest : List Char) (hv : ∀ c ∈ v, c ≠ '\"') :
    scanToQuote (v ++ '\"' :: rest) = some (v, rest) := by
  induction v with
  | nil => rfl
  | cons c t ih =>
    show scanToQuote (c :: (t ++ '\"' :: rest)) = _
    simp only [scanToQuote]
    rw [if_neg (hv c (List.mem_cons_self c t))]
    rw [ih (fun d hd => hv d (List.mem_cons_of_mem c hd))]
    rfl

/-! ### The canonical single-field payload and claim C2 -/

/-- The canonical request body `{"sql": "<v>"}` around a value text `v`. -/
def sqlPayload (v : List Char) : List Char :=
  lbrace :: '\"' :: 's' :: 'q' :: 'l' :: '\"' :: ':' :: ' ' :: '\"' ::
    (v ++ ['\"', rbrace])

/-- The span the `sql` pattern matches inside `sqlPayload v`
(`"sql": "<v>"`). -/
def sqlWhole (v : List Char) : List Char :=
  '\"' :: 's' :: 'q' :: 'l' :: '\"' :: ':' :: ' ' :: '\"' :: (v ++ ['\"'])

lemma sqlPayload_eq (v : List Char) :
    sqlPayload v = lbrace :: (sqlWhole v ++ [rbrace]) := by
  simp [sqlPayload, sqlWhole]

lemma parseVal_payload_some (f : Nat) (X s : List Char)
    (h : parseStrBody (X ++ ['\"', rbrace]) = some (s, [rbrace])) :
    parseVal (f + 3)
      (lbrace :: '\"' :: 's' :: 'q' :: 'l' :: '\"' :: ':' :: ' ' :: '\"' ::
        (X ++ ['\"', rbrace])) =
      some (.obj [("sql", .str (String.mk s))], []) := by
  rw [(by rfl :
    parseVal (f + 3)
      (lbrace :: '\"' :: 's' :: 'q' :: 'l' :: '\"' :: ':' :: ' ' :: '\"' ::
        (X ++ ['\"', rbrace]))
    = afterMember
        (membersLoop (parseVal (f + 2))
          (('s' :: 'q' :: 'l' :: '\"' :: ':' :: ' ' :: '\"' ::
            (X ++ ['\"', rbrace])).length))
        [] "sql"
        (parseVal (f + 2) ('\"' :: (X ++ ['\"', rbrace]))))]
  rw [(by rfl :
    parseVal (f + 2) ('\"' :: (X ++ ['\"', rbrace])) =
      (match parseStrBody (X ++ ['\"', rbrace]) with
       | some (sv, r) => some (PyVal.str (String.mk sv), r)
       | none => none))]
  rw [h]
  rfl

lemma parseVal_payload_none (f : Nat) (X : List Char)
    (h : parseStrBody (X ++ ['\"', rbrace]) = none) :
    parseVal (f + 3)
      (lbrace :: '\"' :: 's' :: 'q' :: 'l' :: '\"' :: ':' :: ' ' :: '\"' ::
        (X ++ ['\"', rbrace])) = none := by
  rw [(by rfl :
    parseVal (f + 3)
      (lbrace :: '\"' :: 's' :: 'q' :: 'l' :: '\"' :: ':' :: ' ' :: '\"' ::
        (X ++ ['\"', rbrace]))
    = afterMember
        (membersLoop (parseVal (f + 2))
          (('s' :: 'q' :: 'l' :: '\"' :: ':' :: ' ' :: '\"' ::
            (X ++ ['\"', rbrace])).length))
        [] "sql"
        (parseVal (f + 2) ('\"' :: (X ++ ['\"', rbrace]))))]
  rw [(by rfl :
    parseVal (f + 2) ('\"' :: (X ++ ['\"', rbrace])) =
      (match parseStrBody (X ++ ['\"', rbrace]) with
       | some (sv, r) => some (PyVal.str (String.mk sv), r)
       | none => none))]
  rw [h]
  rfl

lemma jsonLoadsList_payload_some (X s : List Char)
    (h : parseStrBody (X ++ ['\"', rbrace]) = some (s, [rbrace])) :
    jsonLoadsList
      (lbrace :: '\"' :: 's' :: 'q' :: 'l' :: '\"' :: ':' :: ' ' :: '\"' ::
        (X ++ ['\"', rbrace])) =
      some (.obj [("sql", .str (String.mk s))]) := by
  unfold jsonLoadsList
  obtain ⟨g, hg⟩ : ∃ g,
      2 * (lbrace :: '\"' :: 's' :: 'q' :: 'l' :: '\"' :: ':' :: ' ' :: '\"' ::
        (X ++ ['\"', rbrace])).length + 2 = g + 3 :=
    ⟨2 * (lbrace :: '\"' :: 's' :: 'q' :: 'l' :: '\"' :: ':' :: ' ' :: '\"' ::
        (X ++ ['\"', rbrace])).length - 1, by simp [List.length_cons]; omega⟩
  rw [(by rfl :
    jskipWs (lbrace :: '\"' :: 's' :: 'q' :: 'l' :: '\"' :: ':' :: ' ' :: '\"' ::
      (X ++ ['\"', rbrace])) =
    lbrace :: '\"' :: 's' :: 'q' :: 'l' :: '\"' :: ':' :: ' ' :: '\"' ::
      (X ++ ['\"', rbrace]))]
  rw [hg, parseVal_payload_some g X s h]
  rfl

lemma jsonLoadsList_payload_none (X : List Char)
    (h : parseStrBody (X ++ ['\"', rbrace]) = none) :
    jsonLoadsList
      (lbrace :: '\"' :: 's' :: 'q' :: 'l' :: '\"' :: ':' :: ' ' :: '\"' ::
        (X ++ ['\"', rbrace])) = none := by
  unfold jsonLoadsList
  obtain ⟨g, hg⟩ : ∃ g,
      2 * (lbrace :: '\"' :: 's' :: 'q' :: 'l' :: '\"' :: ':' :: ' ' :: '\"' ::
        (X ++ ['\"', rbrace])).length + 2 = g + 3 :=
    ⟨2 * (lbrace :: '\"' :: 's' :: 'q' :: 'l' :: '\"' :: ':' :: ' ' :: '\"' ::
        (X ++ ['\"', rbrace])).length - 1, by simp [List.length_cons]; omega⟩
  rw [(by rfl :
    jskipWs (lbrace :: '\"' :: 's' :: 'q' :: 'l' :: '\"' :: ':' :: ' ' :: '\"' ::
      (X ++ ['\"', rbrace])) =
    lbrace :: '\"' :: 's' :: 'q' :: 'l' :: '\"' :: ':' :: ' ' :: '\"' ::
      (X ++ ['\"', rbrace]))]
  rw [hg, parseVal_payload_none g X h]

lemma findSql_payload (v : List Char) (hq : ∀ c ∈ v, c ≠ '\"') :
    findSql (sqlPayload v) = some (sqlWhole v, v) := by
  have h2 : scanToQuote (v ++ ['\"', rbrace]) = some (v, [rbrace]) :=
    scanToQuote_no_quote v [rbrace] hq
  have e0 : findSql (sqlPayload v) =
      findSql ('\"' :: 's' :: 'q' :: 'l' :: '\"' :: ':' :: ' ' :: '\"' ::
        (v ++ ['\"', rbrace])) := by
    rw [(by rfl : findSql (sqlPayload v) =
      (match matchSqlAt (sqlPayload v) with
       | some r => some r
       | none => findSql ('\"' :: 's' :: 'q' :: 'l' :: '\"' :: ':' :: ' ' ::
           '\"' :: (v ++ ['\"', rbrace]))))]
    rw [(by rfl : matchSqlAt (sqlPayload v) = (none :
      Option (List Char × List Char)))]
  have e1 : findSql ('\"' :: 's' :: 'q' :: 'l' :: '\"' :: ':' :: ' ' :: '\"' ::
      (v ++ ['\"', rbrace])) = some (sqlWhole v, v) := by
    rw [(by rfl : findSql ('\"' :: 's' :: 'q' :: 'l' :: '\"' :: ':' :: ' ' ::
        '\"' :: (v ++ ['\"', rbrace])) =
      (match matchSqlAt ('\"' :: 's' :: 'q' :: 'l' :: '\"' :: ':' :: ' ' ::
          '\"' :: (v ++ ['\"', rbrace])) with
       | some r => some r
       | none => findSql ('s' :: 'q' :: 'l' :: '\"' :: ':' :: ' ' :: '\"' ::
           (v ++ ['\"', rbrace]))))]
    rw [(by rfl : matchSqlAt ('\"' :: 's' :: 'q' :: 'l' :: '\"' :: ':' :: ' ' ::
        '\"' :: (v ++ ['\"', rbrace])) =
      (match scanToQuote (v ++ ['\"', rbrace]) with
       | some (cap, _) => some (sqlKey ++ [' '] ++ '\"' :: (cap ++ ['\"']), cap)
       | none => none))]
    rw [h2]
    rfl
  rw [e0, e1]

lemma strRepl_braced (pat new : List Char)
    (h0 : pat.isPrefixOf (lbrace :: (pat ++ [rbrace])) = false)
    (h1 : pat.isPrefixOf [rbrace] = false) :
    strRepl pat new (lbrace :: (pat ++ [rbrace])) = lbrace :: (new ++ [rbrace]) := by
  cases pat with
  | nil => exact absurd h1 (by simp [List.isPrefixOf])
  | cons p0 pt =>
    have s2 : ∀ m, replaceSub (p0 :: pt) new (m + 1) [rbrace] = [rbrace] := by
      intro m
      rw [(by rfl : replaceSub (p0 :: pt) new (m + 1) [rbrace] =
        if !(p0 :: pt).isEmpty && (p0 :: pt).isPrefixOf [rbrace] then
          new ++ replaceSub (p0 :: pt) new m ([rbrace].drop (p0 :: pt).length)
        else rbrace :: replaceSub (p0 :: pt) new m [])]
      rw [h1]
      simp [replaceSub_nil]
    have s1 : replaceSub (p0 :: pt) new ((pt ++ [rbrace]).length + 1 + 1)
        ((p0 :: pt) ++ [rbrace]) = new ++ [rbrace] := by
      rw [(by rfl : replaceSub (p0 :: pt) new ((pt ++ [rbrace]).length + 1 + 1)
          ((p0 :: pt) ++ [rbrace]) =
        if !(p0 :: pt).isEmpty &&
            (p0 :: pt).isPrefixOf ((p0 :: pt) ++ [rbrace]) then
          new ++ replaceSub (p0 :: pt) new ((pt ++ [rbrace]).length + 1)
            (((p0 :: pt) ++ [rbrace]).drop (p0 :: pt).length)
        else p0 :: replaceSub (p0 :: pt) new ((pt ++ [rbrace]).length + 1)
          (pt ++ [rbrace]))]
      rw [isPrefixOf_self_append]
      simp only [List.isEmpty_cons, Bool.not_false, Bool.true_and, if_true]
      rw [List.drop_left]
      rw [s2]
    have s0 : strRepl (p0 :: pt) new (lbrace :: ((p0 :: pt) ++ [rbrace])) =
        lbrace :: replaceSub (p0 :: pt) new ((pt ++ [rbrace]).length + 1 + 1)
          ((p0 :: pt) ++ [rbrace]) := by
      unfold strRepl
      rw [(by rfl : (lbrace :: ((p0 :: pt) ++ [rbrace])).length + 1 =
        ((pt ++ [rbrace]).length + 1 + 1) + 1)]
      rw [(by rfl : replaceSub (p0 :: pt) new
          (((pt ++ [rbrace]).length + 1 + 1) + 1)
          (lbrace :: ((p0 :: pt) ++ [rbrace])) =
        if !(p0 :: pt).isEmpty &&
            (p0 :: pt).isPrefixOf (lbrace :: ((p0 :: pt) ++ [rbrace])) then
          new ++ replaceSub (p0 :: pt) new ((pt ++ [rbrace]).length + 1 + 1)
            ((lbrace :: ((p0 :: pt) ++ [rbrace])).drop (p0 :: pt).length)
        else lbrace :: replaceSub (p0 :: pt) new
          ((pt ++ [rbrace]).length + 1 + 1) ((p0 :: pt) ++ [rbrace]))]
      rw [h0]
      simp
    rw [s0, s1]

/-- The C2 counterexample payload `{"sql": "A\nB", "sql": "C"}`: its first
`sql` field value contains a literal newline. -/
def rawC2 : String :=
  String.mk ([lbrace] ++ "\"sql\": \"A".data ++ '\n' ::
    "B\", \"sql\": \"C\"".data ++ [rbrace])

/-- Counterexample to C2 as stated: the payload `{"sql": "A\nB", "sql": "C"}`
has an `sql` field value (the one the pattern captures) containing a literal
newline; decoding succeeds via strategy 2, but — because the repaired text
is valid JSON with duplicate keys, and the later key wins — the extracted
query is `C`, which contains no newline at all: the original literal newline
is not reproduced. -/
theorem c2_counterexample :
    (findSql rawC2.data).map (fun p => p.2) = some ('A' :: '\n' :: ['B']) ∧
    '\n' ∈ ('A' :: '\n' :: ['B']) ∧
    fixJsonFormat rawC2 = .ok (.obj [("sql", .str "C")]) ∧
    '\n' ∉ "C".data :=
  ⟨rfl, by decide, rfl, by decide⟩

/-- Claim C2 (amended): for every canonical single-field payload
`{"sql": "<v>"}` whose value text `v` contains a literal newline and
otherwise only ordinary characters (no quotes, no backslashes, no control
characters other than newline/carriage return), the direct parse fails,
strategy 2 succeeds, and the decoded query text is exactly `v` — the
literal newlines are reproduced exactly, with no double-escaping and no
loss. -/
theorem c2_newline_roundtrip (v : List Char)
    (hv : ∀ c ∈ v, goodPlain c ∨ c = '\n' ∨ c = '\r')
    (hn : '\n' ∈ v) :
    strategy1 (String.mk (sqlPayload v)) = none ∧
    strategy2 (String.mk (sqlPayload v)) =
      some (.obj [("sql", .str (String.mk v))]) ∧
    fixJsonFormat (String.mk (sqlPayload v)) =
      .ok (.obj [("sql", .str (String.mk v))]) := by
  have hq : ∀ c ∈ v, c ≠ '\"' := by
    intro c hc
    rcases hv c hc with hg | h | h
    · exact hg.1
    · subst h; decide
    · subst h; decide
  have hs1 : strategy1 (String.mk (sqlPayload v)) = none :=
    jsonLoadsList_payload_none v (parseStrBody_control v ['\"', rbrace] hv hn)
  have hesc : parseStrBody (escNR v ++ ['\"', rbrace]) = some (v, [rbrace]) := by
    rw [escNR_eq_escSeq]
    exact parseStrBody_escSeq v [rbrace] hv
  have hfix : sqlFixedText (sqlPayload v) =
      some (lbrace :: (sqlRepl v ++ [rbrace])) := by
    unfold sqlFixedText
    rw [findSql_payload v hq]
    show some (strRepl (sqlWhole v) (sqlRepl v) (sqlPayload v)) = _
    rw [sqlPayload_eq]
    rw [strRepl_braced (sqlWhole v) (sqlRepl v) (by rfl) (by rfl)]
  have hs2 : strategy2 (String.mk (sqlPayload v)) =
      some (.obj [("sql", .str (String.mk v))]) := by
    show (match sqlFixedText (sqlPayload v) with
          | some fixed => jsonLoadsList fixed
          | none => none) = _
    rw [hfix]
    have hshape : lbrace :: (sqlRepl v ++ [rbrace]) =
        lbrace :: '\"' :: 's' :: 'q' :: 'l' :: '\"' :: ':' :: ' ' :: '\"' ::
          (escNR v ++ ['\"', rbrace]) := by
      simp [sqlRepl, List.append_assoc]
    rw [hshape]
    exact jsonLoadsList_payload_some (escNR v) v hesc
  refine ⟨hs1, hs2, ?_⟩
  unfold fixJsonFormat
  rw [(by rfl : strategy1 (String.mk (sqlPayload v)) =
    jsonLoadsList (sqlPayload v))] at hs1
  unfold strategy1 jsonLoads
  rw [(by rfl : (String.mk (sqlPayload v)).data = sqlPayload v), hs1, hs2]

/-- Witness for the amended C2 at the specification's own example
`{"sql": "SELECT *\nFROM t"}`. -/
theorem c2_newline_roundtrip_witness :
    ((∀ c ∈ "SELECT *\nFROM t".data,
        goodPlain c ∨ c = '\n' ∨ c = '\r') ∧
     '\n' ∈ "SELECT *\nFROM t".data) ∧
    (strategy1 (String.mk (sqlPayload "SELECT *\nFROM t".data)) = none ∧
     strategy2 (String.mk (sqlPayload "SELECT *\nFROM t".data)) =
       some (.obj [("sql", .str (String.mk "SELECT *\nFROM t".data))]) ∧
     fixJsonFormat (String.mk (sqlPayload "SELECT *\nFROM t".data)) =
       .ok (.obj [("sql", .str (String.mk "SELECT *\nFROM t".data))])) :=
  ⟨⟨by decide, by decide⟩,
   c2_newline_roundtrip "SELECT *\nFROM t".data (by decide) (by decide)⟩
